import Mathlib

/-!
Verification development for the floor-plan edit orchestration worker
(source: src/worker.ts).  The worker's data model (sessions and image
versions in two D1 tables), its pure helpers (history trimming, camera-angle
inference, diff summarisation, history parsing), and its two workflows
(upload and edit) are embedded shallowly below.  External collaborators —
the generation oracle (Gemini), the blob store (Cloudflare Images), the
SHA-256 digest, and JSON encoding of histories — are parameters of the
model: their outcomes are inputs, and everything the worker itself computes
is translated directly from the source.
-/

namespace Floorplan

/-! ## JavaScript string primitives

The worker relies on String.prototype.trim, String.prototype.toLowerCase
and String.prototype.includes.  They are modelled executably over the
character list of a string (ASCII behaviour, which is all the keyword table
and the hint handling exercise). -/

/-- Whitespace recognised by trimming (space, tab, newline, carriage return). -/
def isJsWs (c : Char) : Bool :=
  c == ' ' || c == '\t' || c == '\n' || c == '\r'

/-- Drop leading whitespace characters. -/
def dropLeadWs : List Char → List Char
  | [] => []
  | c :: cs => if isJsWs c then dropLeadWs cs else c :: cs

/-- Model of JavaScript String.prototype.trim. -/
def jsTrim (s : String) : String :=
  String.mk ((dropLeadWs ((dropLeadWs s.data).reverse)).reverse)

/-- Lowercase a single ASCII character (identity elsewhere). -/
def lowerChar (c : Char) : Char :=
  if 65 ≤ c.toNat ∧ c.toNat ≤ 90 then Char.ofNat (c.toNat + 32) else c

/-- Model of JavaScript String.prototype.toLowerCase (ASCII range). -/
def jsToLower (s : String) : String :=
  String.mk (s.data.map lowerChar)

/-- Decide whether one character list is a prefix of another. -/
def startsWithChars : List Char → List Char → Bool
  | [], _ => true
  | _ :: _, [] => false
  | a :: as, b :: bs => a == b && startsWithChars as bs

/-- Decide whether the needle occurs contiguously inside the haystack. -/
def containsSub (needle : List Char) : List Char → Bool
  | [] => startsWithChars needle []
  | b :: bs => startsWithChars needle (b :: bs) || containsSub needle bs

/-- Model of JavaScript String.prototype.includes. -/
def stringIncludes (haystack needle : String) : Bool :=
  containsSub needle.data haystack.data

/-- JavaScript string truthiness for an optional string: absent and empty are falsy. -/
def strTruthy : Option String → Bool
  | none => false
  | some s => s != ""

/-- Model of JavaScript Array.prototype.join with a single-space separator. -/
def joinSpace : List String → String
  | [] => ""
  | [s] => s
  | s :: rest => s ++ " " ++ joinSpace rest

/-! ## Conversation data model (worker.ts lines 4-13) -/

/-- Inline binary payload of a content part.  The mime type is optional so
that normalisation (worker.ts normalizeParts) can default it. -/
structure InlineData where
  mimeType : Option String := none
  data : String := ""
deriving DecidableEq

/-- One content part of a conversation turn (text and/or inline data). -/
structure GeminiPart where
  text : Option String := none
  inlineData : Option InlineData := none
  thought : Option Bool := none
deriving DecidableEq

/-- One role-tagged conversation turn. -/
structure GeminiMessage where
  role : String
  parts : List GeminiPart
deriving DecidableEq

/-! ## Persisted rows (migration schema: prompt_sessions and image_versions) -/

/-- Row of the prompt_sessions table. -/
structure SessionRow where
  id : String
  base_prompt : String
  system_prompt : String
  base_prompt_hash : String
  history : String
deriving DecidableEq

/-- Structured view of the JSON metadata blob written on image_versions rows.
Absent keys are modelled as none (JSON.stringify drops undefined values). -/
structure Metadata where
  asset_type : Option String := none
  parent_id : Option String := none
  edit_instruction : Option String := none
  model : String := ""
  base_prompt_hash : String := ""
  timestamp : String := ""
  synth_id : Bool := true
  image_ids : List String := []
  session_id : Option String := none
  angle_id : Option String := none
  aspect_ratio : Option String := none
  previous_version_id : Option String := none
  cloudflare_image_id : Option String := none
  diff_summary : Option String := none
deriving DecidableEq

/-- Row of the image_versions table.  The created_at column (assigned by the
database, second-granularity CURRENT_TIMESTAMP) is modelled as a Nat so that
the ORDER BY datetime(created_at) comparisons are Nat comparisons.  Row order
in a table list is insertion (rowid) order. -/
structure VersionRow where
  id : String
  parent_id : Option String
  base_prompt : String
  edit_prompt : Option String
  model : String
  image_url : String
  metadata : Metadata
  chat_id : Option String
  aspect_ratio : Option String
  diff_summary : Option String
  created_at : Nat
deriving DecidableEq

/-- Combined persistent state: both D1 tables plus the contents of the
external blob store (the Cloudflare Images ids that were actually stored). -/
structure DBState where
  sessions : List SessionRow
  versions : List VersionRow
  blobs : List String
deriving DecidableEq

/-- Model of getVersionById (worker.ts 583-599): SELECT ... WHERE id = ?. -/
def getVersionById (db : DBState) (id : String) : Option VersionRow :=
  db.versions.find? (fun v => v.id == id)

/-- Model of getSessionById (worker.ts 601-616): SELECT ... WHERE id = ?. -/
def getSessionById (db : DBState) (id : String) : Option SessionRow :=
  db.sessions.find? (fun s => s.id == id)

/-! ## Constants (worker.ts 44-77) -/

/-- Keyword-to-label table CAMERA_KEYWORDS in its declared order. -/
def CAMERA_KEYWORDS : List (String × String) :=
  [("north", "north"), ("patio", "patio"), ("south", "south"),
   ("east", "east"), ("west", "west"), ("stairs", "stairs"),
   ("entry", "entry"), ("foyer", "entry"), ("kitchen", "kitchen"),
   ("living", "living"), ("exterior", "exterior")]

/-- Supported aspect ratio set. -/
def SUPPORTED_ASPECT_RATIOS : List String :=
  ["1:1", "3:2", "4:3", "4:5", "16:9", "9:16", "2:3"]

/-- Default Gemini model name. -/
def DEFAULT_MODEL : String := "gemini-2.5-flash-image-preview"

/-- Default system prompt (worker.ts 76-77). -/
def DEFAULT_SYSTEM_PROMPT : String :=
  "You are an AI Orchestrator Worker that manages Gemini image generation and editing for architectural floor plans and interior/exterior photos. You handle upload, transformation, and conversational edits using Gemini\x27s multimodal image API. All images are stored and served from Cloudflare Images, and you maintain a structured version history for every session."

/-! ## Pure helpers translated from worker.ts -/

/-- Model of trimHistory (worker.ts 729-732): when the history exceeds the
cap, keep only the final maxMessages turns (Array.prototype.slice from
history.length - maxMessages). -/
def trimHistory (history : List GeminiMessage) (maxMessages : Nat := 20) :
    List GeminiMessage :=
  if history.length ≤ maxMessages then history
  else history.drop (history.length - maxMessages)

/-- Model of inferCameraAngle (worker.ts 523-534): a truthy explicit hint is
returned trimmed; otherwise the first declared keyword occurring in the
lowercased prompt yields its mapped label. -/
def inferCameraAngle (prompt : String) (explicit : Option String) :
    Option String :=
  if strTruthy explicit && jsTrim (explicit.getD "") != "" then
    some (jsTrim (explicit.getD ""))
  else
    (CAMERA_KEYWORDS.find?
      (fun kv => stringIncludes (jsToLower prompt) kv.fst)).map Prod.snd

/-- Model of summarizeParts (worker.ts 536-541): keep parts whose text trims
nonempty, trim each, join with single spaces. -/
def summarizeParts (parts : List GeminiPart) : String :=
  joinSpace
    ((parts.filter
        (fun p => p.text.isSome && jsTrim (p.text.getD "") != "")).map
      (fun p => jsTrim (p.text.getD "")))

/-- Model of buildFollowupSuggestion (worker.ts 543-550). -/
def buildFollowupSuggestion (angle : Option String) (hasDiffText : Bool) :
    String :=
  if strTruthy angle then
    "Would you like to explore another perspective beyond the " ++
      angle.getD "" ++ " angle?"
  else if hasDiffText then
    "Should we generate a comparison view or adjust lighting next?"
  else
    "Would you like to request another refinement?"

/-- Model of normalizeParts (worker.ts 632-652): text kept where present,
inline data kept with the mime type defaulted to image/png, thought kept. -/
def normalizeParts (parts : List GeminiPart) : List GeminiPart :=
  parts.map (fun part =>
    { text := part.text
      inlineData := part.inlineData.map (fun inl =>
        { mimeType := some (inl.mimeType.getD "image/png"), data := inl.data })
      thought := part.thought })

/-- Model of parseHistory (worker.ts 618-630).  JSON.parse plus the shape
checks are abstracted as the decode parameter; a falsy (empty) stored string
returns an empty history at once, and a failed decode is recovered as the
empty history. -/
def parseHistory (decode : String → Option (List GeminiMessage))
    (history : Option String) : List GeminiMessage :=
  if !strTruthy history then []
  else
    match decode (history.getD "") with
    | some parsed =>
        parsed.map (fun m => { role := m.role, parts := normalizeParts m.parts })
    | none => []

/-- Truth of the console.warn in parseHistory's catch branch: a warning is
emitted exactly when a truthy stored string fails to decode. -/
def parseHistoryWarns (decode : String → Option (List GeminiMessage))
    (history : Option String) : Bool :=
  if !strTruthy history then false
  else (decode (history.getD "")).isNone

/-- Model of the trailing-slash strip in uploadToCloudflareImages and
fetchImageAsBase64 (replace of a final slash). -/
def dropTrailingSlash (s : String) : String :=
  if s.data.getLast? == some '/' then String.mk s.data.dropLast else s

/-- Public delivery URL built for a stored blob id. -/
def publicUrlOf (base id : String) : String :=
  dropTrailingSlash base ++ "/" ++ id ++ "/public"

/-! ## External collaborators as parameters -/

/-- Outcome of one call to an external collaborator: the call either throws
or returns a value. -/
inductive UpstreamResult (α : Type) where
  | fail
  | ok (value : α)
deriving DecidableEq

/-- Bytes and mime type obtained by fetchImageAsBase64 for one image id. -/
structure ImagePayload where
  base64 : String
  mimeType : String
deriving DecidableEq

/-- Outcome of the generation oracle call (generateImageFromGemini): either a
thrown failure, or the content parts of the first candidate.  An absent or
empty candidate parts array is the ok [] case. -/
inductive OracleOutcome where
  | fail
  | ok (parts : List GeminiPart)
deriving DecidableEq

/-- Request-scoped environment and collaborator outcomes: the digest
primitive, history JSON codecs, the image fetcher, the oracle outcome, the
blob store outcome, freshly drawn identifiers, and configuration. -/
structure Config where
  hash : String → String
  decode : String → Option (List GeminiMessage)
  encode : List GeminiMessage → String
  fetchImage : String → UpstreamResult ImagePayload
  oracle : OracleOutcome
  blob : UpstreamResult String
  newSessionId : String
  newVersionId : String
  deliveryBase : String
  geminiModel : Option String
  systemPromptEnv : Option String
  nowIso : String
  now : Nat

/-! ## Request bodies -/

/-- One mask entry of an edit request. -/
structure MaskInput where
  image_id : Option String := none
  data : Option String := none
  mime_type : Option String := none
deriving DecidableEq

/-- JSON body of POST /api/edit (worker.ts EditRequestBody). -/
structure EditRequestBody where
  image_ids : List String := []
  edit_prompt : String := ""
  base_prompt : Option String := none
  previous_version_id : Option String := none
  aspect_ratio : Option String := none
  session_id : Option String := none
  masks : List MaskInput := []
  camera_hint : Option String := none
deriving DecidableEq

/-- Multipart form of POST /api/upload: the file field (bytes abstracted) and
the optional string fields. -/
structure UploadForm where
  isMultipart : Bool := true
  file : Option String := none
  fileType : String := ""
  asset_type : Option String := none
  base_prompt : Option String := none
  design_intent : Option String := none
  aspect_ratio : Option String := none
deriving DecidableEq

/-- Response of the edit workflow: an error status with message, or the
success envelope. -/
inductive EditResult where
  | err (status : Nat) (message : String)
  | ok (new_image_id version_id public_url diff_summary followup_suggestion :
      String)
deriving DecidableEq

/-- Response of the upload workflow. -/
inductive UploadResult where
  | err (status : Nat) (message : String)
  | ok (image_id version_id session_id public_url diff_summary
      followup_suggestion : String)
deriving DecidableEq

/-! ## Session creation, resolution and persistence -/

/-- Model of createSession (worker.ts 564-581): insert a fresh session row
with empty serialised history and return it. -/
def createSession (cfg : Config) (db : DBState) (basePrompt : String) :
    SessionRow × DBState :=
  let s : SessionRow :=
    { id := cfg.newSessionId
      base_prompt := basePrompt
      system_prompt := cfg.systemPromptEnv.getD DEFAULT_SYSTEM_PROMPT
      base_prompt_hash := cfg.hash basePrompt
      history := "[]" }
  (s, { db with sessions := db.sessions ++ [s] })

/-- Session referenced by the previous version, when that version carries a
truthy chat id (worker.ts 217-219). -/
def sessionFromPrevious (db : DBState) (previousVersion : Option VersionRow) :
    Option SessionRow :=
  match previousVersion with
  | some pv =>
      if strTruthy pv.chat_id then getSessionById db (pv.chat_id.getD "")
      else none
  | none => none

/-- Session looked up from a truthy explicit session id (worker.ts 221-223). -/
def sessionFromBodyId (db : DBState) (sessionId : Option String) :
    Option SessionRow :=
  if strTruthy sessionId then getSessionById db (sessionId.getD "") else none

/-- Result of session resolution on the edit path. -/
structure ResolveOutcome where
  previousVersion : Option VersionRow
  session : Option SessionRow
  db : DBState
deriving DecidableEq

/-- Previous-version lookup of handleEdit (worker.ts 211-213): a truthy
previous_version_id is looked up; a miss yields null. -/
def previousVersionLookup (db : DBState) (body : EditRequestBody) :
    Option VersionRow :=
  if strTruthy body.previous_version_id then
    getVersionById db (body.previous_version_id.getD "")
  else none

/-- Model of the session-resolution block of handleEdit (worker.ts 211-231):
look up the previous version if its id is truthy, then take the first of
(session referenced by the previous version, session named by the body,
fresh session created from a truthy base prompt); a lookup that finds
nothing falls through to the next source. -/
def resolveSession (cfg : Config) (body : EditRequestBody) (db : DBState) :
    ResolveOutcome :=
  let previousVersion := previousVersionLookup db body
  let session0 := sessionFromPrevious db previousVersion
  let session1 :=
    match session0 with
    | some s => some s
    | none => sessionFromBodyId db body.session_id
  match session1 with
  | some s => { previousVersion := previousVersion, session := some s, db := db }
  | none =>
    if strTruthy body.base_prompt then
      let p := createSession cfg db (body.base_prompt.getD "")
      { previousVersion := previousVersion, session := some p.fst, db := p.snd }
    else { previousVersion := previousVersion, session := none, db := db }

/-- Model of saveHistory (worker.ts 721-727): whole-blob replacement of the
serialised history of the named session row. -/
def saveHistory (cfg : Config) (db : DBState) (sessionId : String)
    (history : List GeminiMessage) : DBState :=
  { db with
    sessions := db.sessions.map (fun s =>
      if s.id == sessionId then { s with history := cfg.encode history } else s) }

/-! ## Inline part assembly for the oracle call (worker.ts 244-270) -/

/-- Fetch every referenced image and wrap it as an inline part; a failed
fetch aborts the whole batch (Promise.all semantics). -/
def fetchInlineParts (cfg : Config) :
    List String → UpstreamResult (List GeminiPart)
  | [] => .ok []
  | id :: rest =>
    match cfg.fetchImage id with
    | .fail => .fail
    | .ok p =>
      match fetchInlineParts cfg rest with
      | .fail => .fail
      | .ok ps =>
          .ok ({ inlineData :=
                  some { mimeType := some p.mimeType, data := p.base64 } } :: ps)

/-- Mask handling: inline data is used directly (mime type defaulted),
otherwise a truthy mask image id is fetched, otherwise the mask is skipped. -/
def maskInlineParts (cfg : Config) :
    List MaskInput → UpstreamResult (List GeminiPart)
  | [] => .ok []
  | m :: rest =>
    let head : UpstreamResult (List GeminiPart) :=
      if strTruthy m.data then
        .ok [{ inlineData :=
                some { mimeType := some (m.mime_type.getD "image/png")
                       data := m.data.getD "" } }]
      else if strTruthy m.image_id then
        match cfg.fetchImage (m.image_id.getD "") with
        | .fail => .fail
        | .ok p =>
            .ok [{ inlineData :=
                    some { mimeType := some p.mimeType, data := p.base64 } }]
      else .ok []
    match head, maskInlineParts cfg rest with
    | .fail, _ => .fail
    | _, .fail => .fail
    | .ok hs, .ok ts => .ok (hs ++ ts)

/-! ## Edit workflow (worker.ts handleEdit, 196-351) -/

/-- Model of handleEdit: validation, session resolution, inline part
assembly, oracle call, image extraction, blob write, version insert, history
append, response.  A thrown collaborator failure surfaces as a 500 error
(the top-level catch of the fetch handler); the 502 branches mirror the
missing-image checks.  The returned state pairs the final database and blob
store contents with the HTTP response. -/
def handleEdit (cfg : Config) (body : EditRequestBody) (db : DBState) :
    DBState × EditResult :=
  if body.image_ids.isEmpty then
    (db, .err 400 "At least one image_id is required")
  else if body.edit_prompt == "" then
    (db, .err 400 "edit_prompt is required")
  else
    let r := resolveSession cfg body db
    match r.session with
    | none => (r.db, .err 400 "A session or base prompt is required to edit")
    | some session =>
      let previousVersion := r.previousVersion
      let parentId := previousVersion.map (fun v => v.id)
      let aspectRatio : Option String :=
        if strTruthy body.aspect_ratio &&
            SUPPORTED_ASPECT_RATIOS.contains (body.aspect_ratio.getD "") then
          body.aspect_ratio
        else previousVersion.bind (fun v => v.aspect_ratio)
      let cameraAngle := inferCameraAngle body.edit_prompt body.camera_hint
      let designIntent :=
        (previousVersion.map (fun v => v.base_prompt)).getD session.base_prompt
      let basePromptHash := session.base_prompt_hash
      let conversation := parseHistory cfg.decode (some session.history)
      match fetchInlineParts cfg body.image_ids with
      | .fail => (r.db, .err 500 "Unable to download image for editing")
      | .ok imageParts =>
        match maskInlineParts cfg body.masks with
        | .fail => (r.db, .err 500 "Unable to download image for editing")
        | .ok maskPartsList =>
          let inlineParts := imageParts ++ maskPartsList
          let userMessage : GeminiMessage :=
            { role := "user"
              parts := { text := some body.edit_prompt } :: inlineParts }
          let messages := conversation ++ [userMessage]
          match cfg.oracle with
          | .fail => (r.db, .err 500 "oracle call failed")
          | .ok rawParts =>
            if rawParts.isEmpty then
              (r.db, .err 502 "Gemini response did not include image data")
            else
              let modelParts := normalizeParts rawParts
              match modelParts.find? (fun p => p.inlineData.isSome) with
              | none => (r.db, .err 502 "Gemini response missing inline image")
              | some inlineImagePart =>
                match inlineImagePart.inlineData with
                | none => (r.db, .err 502 "Gemini response missing inline image")
                | some _inl =>
                  let textSummary := summarizeParts modelParts
                  let followup :=
                    buildFollowupSuggestion cameraAngle (textSummary.length > 0)
                  let metadata : Metadata :=
                    { parent_id := parentId
                      edit_instruction := some body.edit_prompt
                      model := cfg.geminiModel.getD DEFAULT_MODEL
                      base_prompt_hash := basePromptHash
                      timestamp := cfg.nowIso
                      synth_id := true
                      image_ids := body.image_ids
                      session_id := some session.id
                      angle_id := cameraAngle
                      aspect_ratio := aspectRatio
                      previous_version_id := parentId }
                  match cfg.blob with
                  | .fail => (r.db, .err 500 "Failed to upload to Cloudflare Images")
                  | .ok imageId =>
                    let db2 := { r.db with blobs := r.db.blobs ++ [imageId] }
                    let publicUrl := publicUrlOf cfg.deliveryBase imageId
                    let versionRow : VersionRow :=
                      { id := cfg.newVersionId
                        parent_id := parentId
                        base_prompt := designIntent
                        edit_prompt := some body.edit_prompt
                        model := metadata.model
                        image_url := publicUrl
                        metadata :=
                          { metadata with
                            cloudflare_image_id := some imageId
                            diff_summary := some textSummary }
                        chat_id := some session.id
                        aspect_ratio := aspectRatio
                        diff_summary :=
                          if textSummary == "" then none else some textSummary
                        created_at := cfg.now }
                    let db3 := { db2 with versions := db2.versions ++ [versionRow] }
                    let updatedHistory :=
                      messages ++ [{ role := "model", parts := modelParts }]
                    let db4 := saveHistory cfg db3 session.id (trimHistory updatedHistory)
                    (db4,
                      .ok imageId cfg.newVersionId publicUrl
                        (if textSummary == "" then "Updated render created."
                         else textSummary)
                        followup)

/-! ## Upload workflow (worker.ts handleUpload, 123-194) -/

/-- Model of handleUpload: validate the multipart form and file, insert a
fresh session seeded from the design intent (falling back to the base
prompt, then the empty string), write the file to the blob store, insert the
root version row, and answer with the static envelope. -/
def handleUpload (cfg : Config) (form : UploadForm) (db : DBState) :
    DBState × UploadResult :=
  if !form.isMultipart then (db, .err 415 "Expected multipart form data")
  else
    match form.file with
    | none => (db, .err 400 "File field is required")
    | some _file =>
      let assetType := form.asset_type.getD "photo"
      let basePrompt := form.base_prompt.getD ""
      let designIntent := form.design_intent.getD basePrompt
      let aspectRatio := form.aspect_ratio
      let basePromptHash := cfg.hash designIntent
      let sessionId := cfg.newSessionId
      let sessionRow : SessionRow :=
        { id := sessionId
          base_prompt := designIntent
          system_prompt := cfg.systemPromptEnv.getD DEFAULT_SYSTEM_PROMPT
          base_prompt_hash := basePromptHash
          history := "[]" }
      let db1 := { db with sessions := db.sessions ++ [sessionRow] }
      let imageMetadata : Metadata :=
        { asset_type := some assetType
          base_prompt_hash := basePromptHash
          edit_instruction := none
          model := "source"
          timestamp := cfg.nowIso
          synth_id := true
          aspect_ratio :=
            if strTruthy aspectRatio &&
                SUPPORTED_ASPECT_RATIOS.contains (aspectRatio.getD "") then
              aspectRatio
            else none }
      match cfg.blob with
      | .fail => (db1, .err 500 "Failed to upload to Cloudflare Images")
      | .ok imageId =>
        let db2 := { db1 with blobs := db1.blobs ++ [imageId] }
        let publicUrl := publicUrlOf cfg.deliveryBase imageId
        let versionRow : VersionRow :=
          { id := cfg.newVersionId
            parent_id := none
            base_prompt := designIntent
            edit_prompt := none
            model := "source"
            image_url := publicUrl
            metadata :=
              { imageMetadata with
                cloudflare_image_id := some imageId
                session_id := some sessionId }
            chat_id := some sessionId
            aspect_ratio := aspectRatio
            diff_summary := none
            created_at := cfg.now }
        let db3 := { db2 with versions := db2.versions ++ [versionRow] }
        (db3,
          .ok imageId cfg.newVersionId sessionId publicUrl "Initial upload"
            "Would you like to request an initial render or annotate the floor plan?")

/-! ## Lineage query (worker.ts handleHistory, 381-408)

The recursive CTE seeds at the queried id (depth 0) and repeatedly joins
children on parent_id, producing rows breadth-first with the children of
each dequeued row enumerated in table (rowid, i.e. creation) order; the
outer select orders by depth, preserving that production order within a
depth.  The breadth-first levels are modelled directly; the depth bound
length + 1 is exact whenever every row's parent occurs earlier in the table
(guaranteed by the write paths), since then every level beyond the table
length is empty. -/

/-- Children of a node: rows whose parent_id equals it, in table order. -/
def childrenOf (tbl : List VersionRow) (pid : String) : List VersionRow :=
  tbl.filter (fun v => v.parent_id == some pid)

/-- Breadth-first level d of the lineage traversal from a seed frontier. -/
def levelAt (tbl : List VersionRow) (seed : List VersionRow) :
    Nat → List VersionRow
  | 0 => seed
  | d + 1 => ((levelAt tbl seed d).map (fun v => childrenOf tbl v.id)).flatten

/-- Model of the /api/history lineage query: all levels concatenated in
depth order, seeded at the rows matching the queried id. -/
def lineage (tbl : List VersionRow) (id : String) : List VersionRow :=
  ((List.range (tbl.length + 1)).map
    (levelAt tbl (tbl.filter (fun v => v.id == id)))).flatten

/-- Descendant relation generated by the table: the queried rows themselves,
and any row whose parent is already a descendant. -/
inductive Desc (tbl : List VersionRow) (id : String) : VersionRow → Prop where
  | self (v : VersionRow) (hv : v ∈ tbl) (hid : v.id = id) : Desc tbl id v
  | child (w v : VersionRow) (hw : Desc tbl id w) (hv : v ∈ tbl)
      (hp : v.parent_id = some w.id) : Desc tbl id v

/-! ## Latest-by-angle query (worker.ts handleRenderAngle, 353-379) -/

/-- Rows whose metadata angle label equals the queried label, in table
order (the WHERE clause json_extract(metadata, angle_id) = label; rows
without the key yield NULL and never match). -/
def angleMatches (tbl : List VersionRow) (label : String) : List VersionRow :=
  tbl.filter (fun v => v.metadata.angle_id == some label)

/-- Admissible results of the handleRenderAngle query (ORDER BY
datetime(created_at) DESC LIMIT 1): a matching row of maximal creation
time.  The SQL supplies no secondary sort key, so with tied timestamps any
admissible row may be returned. -/
def renderAngleSelects (tbl : List VersionRow) (label : String)
    (v : VersionRow) : Prop :=
  v ∈ tbl ∧ v.metadata.angle_id = some label ∧
    ∀ w ∈ tbl, w.metadata.angle_id = some label → w.created_at ≤ v.created_at

/-! ## Failure-mode predicate for the edit path -/

/-- Upstream failures of the edit workflow named by the specification: the
oracle call throws, the oracle answer carries no candidate parts or no
inline image part, or the blob store write throws. -/
def upstreamFailure (cfg : Config) : Prop :=
  cfg.oracle = .fail ∨
    (∃ ps, cfg.oracle = .ok ps ∧
      (ps = [] ∨
        (normalizeParts ps).find? (fun p => p.inlineData.isSome) = none)) ∨
    cfg.blob = .fail

/-! ## Concrete fixtures used to evaluate the model -/

/-- Digest stub used by concrete evaluations. -/
def exHash : String → String := fun s => "sha:" ++ s

/-- History codec stub: only the literal empty array decodes. -/
def exDecode : String → Option (List GeminiMessage) :=
  fun s => if s == "[]" then some [] else none

/-- History encoder stub. -/
def exEncode : List GeminiMessage → String := fun _ => "[enc]"

/-- Image fetcher stub that always succeeds. -/
def exFetch : String → UpstreamResult ImagePayload :=
  fun _ => .ok { base64 := "b64", mimeType := "image/png" }

/-- Baseline request-scoped configuration: every collaborator succeeds and
the oracle answers with a single inline image part and no text. -/
def exCfg : Config :=
  { hash := exHash
    decode := exDecode
    encode := exEncode
    fetchImage := exFetch
    oracle := .ok [{ inlineData := some { mimeType := some "image/png", data := "xyz" } }]
    blob := .ok "img-new"
    newSessionId := "S-new"
    newVersionId := "V-new"
    deliveryBase := "https://img.example"
    geminiModel := none
    systemPromptEnv := some "sys"
    nowIso := "2026-01-01T00:00:00Z"
    now := 10 }

/-- Configuration in which the oracle call throws. -/
def cfgOracleFail : Config := { exCfg with oracle := .fail }

/-- Configuration in which the blob store write throws. -/
def cfgBlobFail : Config := { exCfg with blob := .fail }

/-- Edit body carrying only a base prompt for session resolution. -/
def bodyWithBasePrompt : EditRequestBody :=
  { image_ids := ["img1"], edit_prompt := "add a skylight"
    base_prompt := some "modern kitchen" }

/-- Edit body whose previous-version id and session id are both dangling
while a base prompt is supplied. -/
def bodyDanglingIds : EditRequestBody :=
  { image_ids := ["img1"], edit_prompt := "brighter lighting"
    previous_version_id := some "ghost-version"
    session_id := some "ghost-session"
    base_prompt := some "modern kitchen" }

/-- Empty persistent state. -/
def dbEmpty : DBState := { sessions := [], versions := [], blobs := [] }

/-- Version-row skeleton for table fixtures. -/
def vr (id : String) (parent : Option String) (t : Nat) : VersionRow :=
  { id := id, parent_id := parent, base_prompt := "", edit_prompt := none
    model := "", image_url := "", metadata := {}, chat_id := none
    aspect_ratio := none, diff_summary := none, created_at := t }

/-- Five-node forest fixture in insertion (creation) order: r with children
A then B, then b1 under B created before a1 under A. -/
def exTbl3 : List VersionRow :=
  [vr "r" none 0, vr "A" (some "r") 1, vr "B" (some "r") 2,
   vr "b1" (some "B") 3, vr "a1" (some "A") 4]

/-- Rank function witnessing that exTbl3 lists parents before children. -/
def exRank3 : String → Nat := fun id =>
  if id == "r" then 0 else if id == "A" then 1 else if id == "B" then 2
  else if id == "b1" then 3 else 4

/-- Tagged version fixture: label patio, creation time 5. -/
def exV4a : VersionRow :=
  { vr "va" none 5 with metadata := { angle_id := some "patio" } }

/-- Second tagged version fixture with the same label and creation time. -/
def exV4b : VersionRow :=
  { vr "vb" none 5 with metadata := { angle_id := some "patio" } }

/-- Table holding two versions tied on label and creation time. -/
def exTbl4 : List VersionRow := [exV4a, exV4b]

/-- Upload form carrying a file but neither design_intent nor base_prompt. -/
def formBare : UploadForm :=
  { isMultipart := true, file := some "filebytes", fileType := "image/png" }

/-! ## Helper lemmas -/

theorem trimHistory_eq_drop (l : List GeminiMessage) (cap : Nat) :
    trimHistory l cap = l.drop (l.length - cap) := by
  unfold trimHistory
  split
  · next h =>
    rw [Nat.sub_eq_zero_of_le h, List.drop_zero]
  · rfl

theorem trimHistory_length (l : List GeminiMessage) (cap : Nat) :
    (trimHistory l cap).length = min l.length cap := by
  unfold trimHistory
  split
  · next h => exact (Nat.min_eq_left h).symm
  · next h => rw [List.length_drop]; omega

theorem foldl_trim_length_le (batches : List (List GeminiMessage)) :
    ∀ acc : List GeminiMessage, acc.length ≤ 20 →
      (batches.foldl (fun h ts => trimHistory (h ++ ts)) acc).length ≤ 20 := by
  induction batches with
  | nil => intro acc h; simpa using h
  | cons b bs ih =>
    intro acc h
    simp only [List.foldl_cons]
    apply ih
    rw [trimHistory_length]
    exact Nat.min_le_right _ _

theorem find?_eq_some_split {α : Type} (p : α → Bool) (l : List α) (a : α) :
    l.find? p = some a ↔
      ∃ pre post, l = pre ++ a :: post ∧ p a = true ∧
        ∀ x ∈ pre, p x = false := by
  induction l with
  | nil => simp
  | cons b bs ih =>
    rcases hb : p b with _ | _
    · rw [List.find?_cons_of_neg _ (by simp [hb]), ih]
      constructor
      · rintro ⟨pre, post, heq, hpa, hpre⟩
        refine ⟨b :: pre, post, by rw [heq]; rfl, hpa, ?_⟩
        intro x hx
        rcases List.mem_cons.mp hx with rfl | hx
        · exact hb
        · exact hpre x hx
      · rintro ⟨pre, post, heq, hpa, hpre⟩
        cases pre with
        | nil =>
          simp only [List.nil_append] at heq
          obtain ⟨rfl, rfl⟩ := List.cons.injEq .. ▸ And.intro
            (List.head_eq_of_cons_eq heq) (List.tail_eq_of_cons_eq heq)
          rw [hb] at hpa
          exact absurd hpa (by simp)
        | cons c cs =>
          obtain rfl := List.head_eq_of_cons_eq heq
          obtain rfl := List.tail_eq_of_cons_eq heq
          exact ⟨cs, post, rfl, hpa, fun x hx => hpre x (List.mem_cons_of_mem _ hx)⟩
    · rw [List.find?_cons_of_pos _ hb]
      constructor
      · rintro h
        obtain rfl := Option.some.inj h
        exact ⟨[], bs, rfl, hb, by simp⟩
      · rintro ⟨pre, post, heq, hpa, hpre⟩
        cases pre with
        | nil =>
          obtain rfl := List.head_eq_of_cons_eq heq
          rfl
        | cons c cs =>
          obtain rfl := List.head_eq_of_cons_eq heq
          have := hpre b (List.mem_cons_self ..)
          rw [hb] at this
          exact absurd this (by simp)

theorem startsWithChars_iff (n : List Char) :
    ∀ h : List Char, startsWithChars n h = true ↔ ∃ rest, h = n ++ rest := by
  induction n with
  | nil =>
    intro h
    simp [startsWithChars]
  | cons a as ih =>
    intro h
    cases h with
    | nil =>
      simp [startsWithChars]
    | cons b bs =>
      simp only [startsWithChars, Bool.and_eq_true, beq_iff_eq, ih,
        List.cons_append, List.cons.injEq]
      constructor
      · rintro ⟨rfl, rest, rfl⟩
        exact ⟨rest, rfl, rfl⟩
      · rintro ⟨rest, rfl, rfl⟩
        exact ⟨rfl, rest, rfl⟩

theorem containsSub_iff (n : List Char) :
    ∀ h : List Char, containsSub n h = true ↔
      ∃ pre post, h = pre ++ n ++ post := by
  intro h
  induction h with
  | nil =>
    simp only [containsSub, startsWithChars_iff]
    constructor
    · rintro ⟨rest, heq⟩
      exact ⟨[], rest, by simpa using heq⟩
    · rintro ⟨pre, post, heq⟩
      obtain ⟨h1, h2⟩ := List.append_eq_nil.mp (heq.symm)
      obtain ⟨h3, h4⟩ := List.append_eq_nil.mp h1
      exact ⟨post, by simp [h4, h2]⟩
  | cons b bs ih =>
    simp only [containsSub, Bool.or_eq_true, startsWithChars_iff, ih]
    constructor
    · rintro (⟨rest, heq⟩ | ⟨pre, post, heq⟩)
      · exact ⟨[], rest, by simpa using heq⟩
      · exact ⟨b :: pre, post, by simp [heq]⟩
    · rintro ⟨pre, post, heq⟩
      cases pre with
      | nil => exact Or.inl ⟨post, by simpa using heq⟩
      | cons c cs =>
        obtain rfl := List.head_eq_of_cons_eq heq
        refine Or.inr ⟨cs, post, ?_⟩
        simpa using List.tail_eq_of_cons_eq heq

/-! ## C5 — history cap and FIFO eviction -/

/-- C5 (confirmed): after any sequence of append-and-trim steps starting
from the empty stored history, the history length never exceeds the cap of
20; and trimming always returns exactly the suffix of the most recent 20
turns in their original order (the drop characterisation, the min length
law, and the suffix law together say the retained entries are exactly the
newest cap turns, oldest evicted first). -/
theorem c5_history_cap :
    (∀ batches : List (List GeminiMessage),
        (batches.foldl (fun h ts => trimHistory (h ++ ts)) []).length ≤ 20) ∧
    (∀ l : List GeminiMessage,
        trimHistory l = l.drop (l.length - 20) ∧
        (trimHistory l).length = min l.length 20 ∧
        trimHistory l <:+ l) := by
  refine ⟨fun batches => foldl_trim_length_le batches [] (by simp),
    fun l => ⟨trimHistory_eq_drop l 20, trimHistory_length l 20, ?_⟩⟩
  rw [trimHistory_eq_drop]
  exact List.drop_suffix _ _

/-! ## C6 — camera-angle inference -/

theorem jsTrim_empty : jsTrim "" = "" := rfl

/-- C6 (corrected, theorem of the amended claim): a hint that trims nonempty
is returned trimmed (not verbatim); otherwise the scan returns none exactly
when no declared keyword occurs as a substring of the lowercased text, and a
returned label is the mapped label of the first declared keyword that
occurs, every earlier table entry failing to occur.  Determinism is
immediate since the model is a function of (text, hint). -/
theorem c6_infer_angle :
    (∀ t e, jsTrim e ≠ "" →
        inferCameraAngle t (some e) = some (jsTrim e)) ∧
    (∀ t h, jsTrim (h.getD "") = "" →
        ((inferCameraAngle t h = none ↔
            ∀ kv ∈ CAMERA_KEYWORDS,
              ¬∃ pre post, (jsToLower t).data = pre ++ kv.fst.data ++ post) ∧
         (∀ l, inferCameraAngle t h = some l →
            ∃ pre kv post, CAMERA_KEYWORDS = pre ++ kv :: post ∧ kv.snd = l ∧
              (∃ s u, (jsToLower t).data = s ++ kv.fst.data ++ u) ∧
              ∀ kv2 ∈ pre,
                ¬∃ s u, (jsToLower t).data = s ++ kv2.fst.data ++ u))) := by
  constructor
  · intro t e he
    have he' : e ≠ "" := fun h => he (h ▸ jsTrim_empty)
    have hcond : (strTruthy (some e) && (jsTrim ((some e).getD "") != "")) = true := by
      simp [strTruthy, bne_iff_ne, he, he']
    unfold inferCameraAngle
    rw [hcond]
    simp
  · intro t h hh
    have hcond : (strTruthy h && (jsTrim (h.getD "") != "")) = false := by
      cases h with
      | none => simp [strTruthy]
      | some e =>
        simp only [Option.getD_some] at hh
        simp [strTruthy, hh]
    constructor
    · rw [inferCameraAngle, hcond]
      simp only [Bool.false_eq_true, if_false, Option.map_eq_none']
      rw [List.find?_eq_none]
      constructor
      · intro hnone kv hkv hocc
        exact hnone kv hkv (by
          show stringIncludes (jsToLower t) kv.fst = true
          exact (containsSub_iff kv.fst.data (jsToLower t).data).mpr
            (by obtain ⟨pre, post, hp⟩ := hocc; exact ⟨pre, post, hp⟩))
      · intro hall kv hkv hinc
        exact hall kv hkv
          ((containsSub_iff kv.fst.data (jsToLower t).data).mp hinc)
    · intro l hsome
      rw [inferCameraAngle, hcond] at hsome
      simp only [Bool.false_eq_true, if_false, Option.map_eq_some'] at hsome
      obtain ⟨kv, hfind, hsnd⟩ := hsome
      obtain ⟨pre, post, heq, hpa, hpre⟩ :=
        (find?_eq_some_split _ _ _).mp hfind
      refine ⟨pre, kv, post, heq, hsnd, ?_, ?_⟩
      · exact (containsSub_iff kv.fst.data (jsToLower t).data).mp hpa
      · intro kv2 hkv2 hocc
        have := hpre kv2 hkv2
        have hc : containsSub kv2.fst.data (jsToLower t).data = true :=
          (containsSub_iff kv2.fst.data (jsToLower t).data).mpr hocc
        rw [show stringIncludes (jsToLower t) kv2.fst =
              containsSub kv2.fst.data (jsToLower t).data from rfl] at this
        rw [hc] at this
        exact absurd this (by simp)

/-- C6 counterexample: a hint with surrounding whitespace is returned
trimmed, not verbatim — the claim's "returns the hint verbatim" fails at
hint " patio ". -/
theorem c6_counterexample :
    inferCameraAngle "" (some " patio ") = some "patio" ∧
    inferCameraAngle "" (some " patio ") ≠ some " patio " := by
  exact ⟨rfl, by decide⟩

/-- C6 witness: the amended theorem applied at concrete inputs — a clean
hint is returned as given (its trim), and a text with no keyword yields no
occurrence of any table keyword. -/
theorem c6_witness :
    inferCameraAngle "front view" (some "patio") = some "patio" ∧
    (∀ kv ∈ CAMERA_KEYWORDS,
       ¬∃ pre post, (jsToLower "hello").data = pre ++ kv.fst.data ++ post) := by
  constructor
  · exact (c6_infer_angle.1 "front view" "patio" (by decide)).trans rfl
  · exact (c6_infer_angle.2 "hello" none (by decide)).1.mp (by decide)

/-! ## C2 — session resolution precedence -/

/-- C2 (corrected, theorem of the amended claim): session resolution follows
the precedence (previous version's session, explicit session id, fresh
session from base prompt, failure), where each earlier source that yields
nothing — including a dangling previous-version id, a previous version with
no session reference, or an unknown explicit session id — silently falls
through to the next source, and exhaustion yields a generic missing-context
failure rather than NotFound. -/
theorem c2_resolution_precedence (cfg : Config) (body : EditRequestBody)
    (db : DBState) :
    (∀ s, sessionFromPrevious db (previousVersionLookup db body) = some s →
        resolveSession cfg body db =
          { previousVersion := previousVersionLookup db body
            session := some s, db := db }) ∧
    (sessionFromPrevious db (previousVersionLookup db body) = none →
      ∀ s, sessionFromBodyId db body.session_id = some s →
        resolveSession cfg body db =
          { previousVersion := previousVersionLookup db body
            session := some s, db := db }) ∧
    (sessionFromPrevious db (previousVersionLookup db body) = none →
      sessionFromBodyId db body.session_id = none →
      strTruthy body.base_prompt = true →
        resolveSession cfg body db =
          { previousVersion := previousVersionLookup db body
            session := some (createSession cfg db (body.base_prompt.getD "")).fst
            db := (createSession cfg db (body.base_prompt.getD "")).snd }) ∧
    (sessionFromPrevious db (previousVersionLookup db body) = none →
      sessionFromBodyId db body.session_id = none →
      strTruthy body.base_prompt = false →
        resolveSession cfg body db =
          { previousVersion := previousVersionLookup db body
            session := none, db := db }) := by
  refine ⟨?_, ?_, ?_, ?_⟩
  · intro s h0
    simp [resolveSession, h0]
  · intro h0 s h1
    simp [resolveSession, h0, h1]
  · intro h0 h1 h2
    simp [resolveSession, h0, h1, h2]
  · intro h0 h1 h2
    simp [resolveSession, h0, h1, h2]

/-- C2 counterexample: with a dangling previous-version id and a dangling
explicit session id but a present base prompt, resolution does not fail —
it silently falls through both id lookups and creates a fresh session.  The
claim required the operation to fail with NotFound in this situation. -/
theorem c2_counterexample :
    getVersionById dbEmpty "ghost-version" = none ∧
    getSessionById dbEmpty "ghost-session" = none ∧
    (resolveSession exCfg bodyDanglingIds dbEmpty).session.isSome = true ∧
    (resolveSession exCfg bodyDanglingIds dbEmpty).db.sessions.length = 1 :=
  ⟨rfl, rfl, rfl, rfl⟩

/-- C2 witness: the amended theorem applied at the dangling-ids fixture —
every hypothesis evaluates by rfl and rule three (create from base prompt)
fires. -/
theorem c2_witness :
    resolveSession exCfg bodyDanglingIds dbEmpty =
      { previousVersion := previousVersionLookup dbEmpty bodyDanglingIds
        session :=
          some (createSession exCfg dbEmpty
            (bodyDanglingIds.base_prompt.getD "")).fst
        db := (createSession exCfg dbEmpty
          (bodyDanglingIds.base_prompt.getD "")).snd } :=
  (c2_resolution_precedence exCfg bodyDanglingIds dbEmpty).2.2.1 rfl rfl rfl

/-! ## Workflow characterisation lemmas -/

theorem createSession_snd (cfg : Config) (db : DBState) (bp : String) :
    (createSession cfg db bp).snd =
      { db with sessions := db.sessions ++ [(createSession cfg db bp).fst] } :=
  rfl

theorem resolveSession_db_spec (cfg : Config) (body : EditRequestBody)
    (db : DBState) :
    (resolveSession cfg body db).db.versions = db.versions ∧
    (resolveSession cfg body db).db.blobs = db.blobs ∧
    ((resolveSession cfg body db).db.sessions = db.sessions ∨
      ∃ bp, (resolveSession cfg body db).db.sessions =
          db.sessions ++ [(createSession cfg db bp).fst] ∧
        ((createSession cfg db bp).fst).history = "[]") := by
  cases h0 : sessionFromPrevious db (previousVersionLookup db body) with
  | some s => simp [resolveSession, h0]
  | none =>
    cases h1 : sessionFromBodyId db body.session_id with
    | some s => simp [resolveSession, h0, h1]
    | none =>
      cases h2 : strTruthy body.base_prompt with
      | false => simp [resolveSession, h0, h1, h2]
      | true =>
        refine ⟨?_, ?_, Or.inr ⟨body.base_prompt.getD "", ?_, ?_⟩⟩ <;>
          simp [resolveSession, h0, h1, h2, createSession]

theorem handleEdit_err_state (cfg : Config) (body : EditRequestBody)
    (db : DBState) (hfail : upstreamFailure cfg) :
    ∃ s m, handleEdit cfg body db = (db, .err s m) ∨
      handleEdit cfg body db = ((resolveSession cfg body db).db, .err s m) := by
  simp only [handleEdit]
  split
  · exact ⟨400, _, Or.inl rfl⟩
  · split
    · exact ⟨400, _, Or.inl rfl⟩
    · split
      · exact ⟨400, _, Or.inr rfl⟩
      · split
        · exact ⟨500, _, Or.inr rfl⟩
        · split
          · exact ⟨500, _, Or.inr rfl⟩
          · split
            · exact ⟨500, _, Or.inr rfl⟩
            · next rawParts horacle =>
              split
              · exact ⟨502, _, Or.inr rfl⟩
              · next hnonempty =>
                split
                · exact ⟨502, _, Or.inr rfl⟩
                · next ipart hfind =>
                  split
                  · exact ⟨502, _, Or.inr rfl⟩
                  · next inl hinl =>
                    split
                    · exact ⟨500, _, Or.inr rfl⟩
                    · next imageId hblob =>
                      exfalso
                      rcases hfail with h | ⟨ps, hps, hcase⟩ | h
                      · rw [horacle] at h; exact OracleOutcome.noConfusion h
                      · rw [horacle] at hps
                        obtain rfl := (OracleOutcome.ok.injEq ..).mp hps
                        rcases hcase with rfl | hnone
                        · simp at hnonempty
                        · rw [hfind] at hnone
                          exact Option.noConfusion hnone
                      · rw [hblob] at h; exact UpstreamResult.noConfusion h

/-! ## C1 — no version row and no history mutation on upstream failure -/

/-- C1 (corrected, theorem of the amended claim): when the oracle call
fails, the oracle answer has no image part, or the blob write fails, the
edit workflow inserts no Version row and leaves every pre-existing session
row — in particular every stored history — untouched; the one deviation
from the original claim is that a fresh Session created during session
resolution (rule three) persists, with its empty history, rather than being
rolled back. -/
theorem c1_edit_failure_state (cfg : Config) (body : EditRequestBody)
    (db : DBState) (hfail : upstreamFailure cfg) :
    (handleEdit cfg body db).fst.versions = db.versions ∧
    ((handleEdit cfg body db).fst.sessions = db.sessions ∨
      ∃ bp, (handleEdit cfg body db).fst.sessions =
          db.sessions ++ [(createSession cfg db bp).fst] ∧
        ((createSession cfg db bp).fst).history = "[]") := by
  obtain ⟨s, m, h | h⟩ := handleEdit_err_state cfg body db hfail
  · rw [h]
    exact ⟨rfl, Or.inl rfl⟩
  · rw [h]
    obtain ⟨h1, _, h3⟩ := resolveSession_db_spec cfg body db
    exact ⟨h1, h3⟩

/-- C1 counterexample: an edit whose session resolution creates a fresh
session from the base prompt and whose oracle call then fails leaves the
fresh session row persisted — the sessions table is not exactly as it was
before the request, contradicting the claim's all-or-nothing reading that
explicitly includes this case. -/
theorem c1_counterexample :
    (handleEdit cfgOracleFail bodyWithBasePrompt dbEmpty).snd =
      .err 500 "oracle call failed" ∧
    (handleEdit cfgOracleFail bodyWithBasePrompt dbEmpty).fst.versions = [] ∧
    (handleEdit cfgOracleFail bodyWithBasePrompt dbEmpty).fst.sessions.length
      = 1 :=
  ⟨rfl, rfl, rfl⟩

/-- C1 witness: the amended theorem applied at the failing-oracle fixture. -/
theorem c1_witness :
    (handleEdit cfgOracleFail bodyWithBasePrompt dbEmpty).fst.versions =
      dbEmpty.versions ∧
    ((handleEdit cfgOracleFail bodyWithBasePrompt dbEmpty).fst.sessions =
        dbEmpty.sessions ∨
      ∃ bp, (handleEdit cfgOracleFail bodyWithBasePrompt dbEmpty).fst.sessions =
          dbEmpty.sessions ++ [(createSession cfgOracleFail dbEmpty bp).fst] ∧
        ((createSession cfgOracleFail dbEmpty bp).fst).history = "[]") :=
  c1_edit_failure_state cfgOracleFail bodyWithBasePrompt dbEmpty (Or.inl rfl)

/-! ## C7 — blob write precedes version insert -/

theorem handleUpload_state_spec (cfg : Config) (form : UploadForm)
    (db : DBState) :
    ((handleUpload cfg form db).fst.versions = db.versions ∧
      (handleUpload cfg form db).fst.blobs = db.blobs) ∨
    ∃ imageId row,
      cfg.blob = .ok imageId ∧
      row.metadata.cloudflare_image_id = some imageId ∧
      (handleUpload cfg form db).fst.versions = db.versions ++ [row] ∧
      (handleUpload cfg form db).fst.blobs = db.blobs ++ [imageId] := by
  simp only [handleUpload]
  split
  · exact Or.inl ⟨rfl, rfl⟩
  · split
    · exact Or.inl ⟨rfl, rfl⟩
    · split
      · exact Or.inl ⟨rfl, rfl⟩
      · next imageId hblob =>
        exact Or.inr ⟨imageId, _, hblob, by rfl, rfl, rfl⟩

theorem handleEdit_state_spec (cfg : Config) (body : EditRequestBody)
    (db : DBState) :
    ((handleEdit cfg body db).fst.versions = db.versions ∧
      (handleEdit cfg body db).fst.blobs = db.blobs) ∨
    ∃ imageId row,
      cfg.blob = .ok imageId ∧
      (handleEdit cfg body db).fst.versions =
        (resolveSession cfg body db).db.versions ++ [row] ∧
      row.metadata.cloudflare_image_id = some imageId ∧
      (handleEdit cfg body db).fst.blobs =
        (resolveSession cfg body db).db.blobs ++ [imageId] := by
  obtain ⟨hv, hb, _⟩ := resolveSession_db_spec cfg body db
  simp only [handleEdit]
  split
  · exact Or.inl ⟨rfl, rfl⟩
  · split
    · exact Or.inl ⟨rfl, rfl⟩
    · split
      · exact Or.inl ⟨hv, hb⟩
      · split
        · exact Or.inl ⟨hv, hb⟩
        · split
          · exact Or.inl ⟨hv, hb⟩
          · split
            · exact Or.inl ⟨hv, hb⟩
            · split
              · exact Or.inl ⟨hv, hb⟩
              · split
                · exact Or.inl ⟨hv, hb⟩
                · split
                  · exact Or.inl ⟨hv, hb⟩
                  · split
                    · exact Or.inl ⟨hv, hb⟩
                    · next imageId hblob =>
                      exact Or.inr ⟨imageId, _, hblob, rfl, rfl, rfl⟩

/-- C7 (confirmed): in both workflows the blob-store write happens strictly
before the version insert — if the blob write throws, no version row is
inserted; and the invariant that every version row's stored artifact id
refers to an artifact actually present in the blob store is preserved by
both workflows. -/
theorem c7_blob_before_version :
    (∀ (cfg : Config) (form : UploadForm) (db : DBState),
        cfg.blob = .fail →
        (handleUpload cfg form db).fst.versions = db.versions) ∧
    (∀ (cfg : Config) (body : EditRequestBody) (db : DBState),
        cfg.blob = .fail →
        (handleEdit cfg body db).fst.versions = db.versions) ∧
    (∀ (cfg : Config) (form : UploadForm) (db : DBState),
        (∀ v ∈ db.versions, ∃ b ∈ db.blobs,
          v.metadata.cloudflare_image_id = some b) →
        ∀ v ∈ (handleUpload cfg form db).fst.versions,
          ∃ b ∈ (handleUpload cfg form db).fst.blobs,
            v.metadata.cloudflare_image_id = some b) ∧
    (∀ (cfg : Config) (body : EditRequestBody) (db : DBState),
        (∀ v ∈ db.versions, ∃ b ∈ db.blobs,
          v.metadata.cloudflare_image_id = some b) →
        ∀ v ∈ (handleEdit cfg body db).fst.versions,
          ∃ b ∈ (handleEdit cfg body db).fst.blobs,
            v.metadata.cloudflare_image_id = some b) := by
  refine ⟨?_, ?_, ?_, ?_⟩
  · intro cfg form db hfail
    rcases handleUpload_state_spec cfg form db with ⟨hv, _⟩ | ⟨i, _, hok, _⟩
    · exact hv
    · rw [hfail] at hok; exact absurd hok (by simp)
  · intro cfg body db hfail
    rcases handleEdit_state_spec cfg body db with ⟨hv, _⟩ | ⟨i, _, hok, _⟩
    · exact hv
    · rw [hfail] at hok
      exact absurd hok (by simp)
  · intro cfg form db hinv v hv
    rcases handleUpload_state_spec cfg form db with ⟨hvs, hbs⟩ | ⟨i, row, _, hid, hvs, hbs⟩
    · rw [hvs] at hv
      obtain ⟨b, hb, hvb⟩ := hinv v hv
      exact ⟨b, by rw [hbs]; exact hb, hvb⟩
    · rw [hvs] at hv
      rcases List.mem_append.mp hv with hv | hv
      · obtain ⟨b, hb, hvb⟩ := hinv v hv
        exact ⟨b, by rw [hbs]; exact List.mem_append_left _ hb, hvb⟩
      · obtain rfl := List.mem_singleton.mp hv
        exact ⟨i, by rw [hbs]; exact List.mem_append_right _ (List.mem_singleton.mpr rfl), hid⟩
  · intro cfg body db hinv v hv
    obtain ⟨hrv, hrb, _⟩ := resolveSession_db_spec cfg body db
    rcases handleEdit_state_spec cfg body db with ⟨hvs, hbs⟩ | ⟨i, row, _, hvs, hid, hbs⟩
    · rw [hvs] at hv
      obtain ⟨b, hb, hvb⟩ := hinv v hv
      exact ⟨b, by rw [hbs]; exact hb, hvb⟩
    · rw [hvs, hrv] at hv
      rcases List.mem_append.mp hv with hv | hv
      · obtain ⟨b, hb, hvb⟩ := hinv v hv
        exact ⟨b, by rw [hbs, hrb]; exact List.mem_append_left _ hb, hvb⟩
      · obtain rfl := List.mem_singleton.mp hv
        refine ⟨i, ?_, hid⟩
        rw [hbs, hrb]
        exact List.mem_append_right _ (List.mem_singleton.mpr rfl)

/-- C7 witness: the blob-failure halves of the theorem applied at the
failing-blob fixture and the invariant halves applied to the empty state. -/
theorem c7_witness :
    (handleUpload cfgBlobFail formBare dbEmpty).fst.versions =
      dbEmpty.versions ∧
    (handleEdit cfgBlobFail bodyWithBasePrompt dbEmpty).fst.versions =
      dbEmpty.versions ∧
    (∀ v ∈ (handleUpload exCfg formBare dbEmpty).fst.versions,
      ∃ b ∈ (handleUpload exCfg formBare dbEmpty).fst.blobs,
        v.metadata.cloudflare_image_id = some b) :=
  ⟨c7_blob_before_version.1 cfgBlobFail formBare dbEmpty rfl,
   c7_blob_before_version.2.1 cfgBlobFail bodyWithBasePrompt dbEmpty rfl,
   c7_blob_before_version.2.2.1 exCfg formBare dbEmpty (by simp [dbEmpty])⟩

/-! ## C9 — upload with neither design intent nor base prompt -/

/-- C9 (confirmed): an upload that carries a file but omits both
design_intent and base_prompt succeeds; the created session's design intent
is the empty string with the fingerprint of the empty string, and a root
version (null parent) referencing that session is inserted. -/
theorem c9_upload_defaults (cfg : Config) (form : UploadForm) (db : DBState)
    (imageId : String)
    (hm : form.isMultipart = true)
    (hf : form.file.isSome = true)
    (hdi : form.design_intent = none)
    (hbp : form.base_prompt = none)
    (hb : cfg.blob = .ok imageId) :
    (handleUpload cfg form db).snd =
      .ok imageId cfg.newVersionId cfg.newSessionId
        (publicUrlOf cfg.deliveryBase imageId) "Initial upload"
        "Would you like to request an initial render or annotate the floor plan?" ∧
    (handleUpload cfg form db).fst.sessions = db.sessions ++
      [{ id := cfg.newSessionId, base_prompt := ""
         system_prompt := cfg.systemPromptEnv.getD DEFAULT_SYSTEM_PROMPT
         base_prompt_hash := cfg.hash "", history := "[]" }] ∧
    ∃ row, (handleUpload cfg form db).fst.versions = db.versions ++ [row] ∧
      row.parent_id = none ∧ row.chat_id = some cfg.newSessionId ∧
      row.base_prompt = "" ∧ row.metadata.base_prompt_hash = cfg.hash "" := by
  obtain ⟨f, hf'⟩ := Option.isSome_iff_exists.mp hf
  refine ⟨?_, ?_, ?_⟩ <;>
    simp only [handleUpload, hm, hf', hdi, hbp, hb, Bool.not_true,
      Bool.false_eq_true, if_false, Option.getD_none, Option.getD_some]
  exact ⟨_, rfl, rfl, rfl, rfl, rfl⟩

/-- C9 witness: the theorem applied at the bare-form fixture. -/
theorem c9_witness :
    (handleUpload exCfg formBare dbEmpty).snd =
      .ok "img-new" exCfg.newVersionId exCfg.newSessionId
        (publicUrlOf exCfg.deliveryBase "img-new") "Initial upload"
        "Would you like to request an initial render or annotate the floor plan?" ∧
    (handleUpload exCfg formBare dbEmpty).fst.sessions = dbEmpty.sessions ++
      [{ id := exCfg.newSessionId, base_prompt := ""
         system_prompt := exCfg.systemPromptEnv.getD DEFAULT_SYSTEM_PROMPT
         base_prompt_hash := exCfg.hash "", history := "[]" }] ∧
    ∃ row, (handleUpload exCfg formBare dbEmpty).fst.versions =
        dbEmpty.versions ++ [row] ∧
      row.parent_id = none ∧ row.chat_id = some exCfg.newSessionId ∧
      row.base_prompt = "" ∧ row.metadata.base_prompt_hash = exCfg.hash "" :=
  c9_upload_defaults exCfg formBare dbEmpty "img-new" rfl rfl rfl rfl rfl

/-! ## Diff-summary lemmas -/

theorem joinSpace_head_ne (s : String) (rest : List String) (hs : s ≠ "") :
    joinSpace (s :: rest) ≠ "" := by
  cases rest with
  | nil => simpa [joinSpace] using hs
  | cons t ts =>
    intro hcontra
    have hstep : joinSpace (s :: t :: ts) = s ++ " " ++ joinSpace (t :: ts) := rfl
    rw [hstep] at hcontra
    have hlen := congrArg String.length hcontra
    rw [String.length_append, String.length_append] at hlen
    have hone : (" " : String).length = 1 := rfl
    have hzero : ("" : String).length = 0 := rfl
    rw [hone, hzero] at hlen
    omega

theorem joinSpace_eq_empty {l : List String} (h : ∀ x ∈ l, x ≠ "") :
    joinSpace l = "" ↔ l = [] := by
  cases l with
  | nil => simp [joinSpace]
  | cons s rest =>
    constructor
    · intro hc
      exact absurd hc (joinSpace_head_ne s rest (h s (List.mem_cons_self ..)))
    · intro hc
      exact absurd hc (List.cons_ne_nil _ _)

theorem summarizeParts_eq_empty_iff (parts : List GeminiPart) :
    summarizeParts parts = "" ↔
      ∀ p ∈ parts, ∀ t, p.text = some t → jsTrim t = "" := by
  unfold summarizeParts
  have hall : ∀ x ∈ (parts.filter
      (fun p => p.text.isSome && jsTrim (p.text.getD "") != "")).map
        (fun p => jsTrim (p.text.getD "")), x ≠ "" := by
    intro x hx
    obtain ⟨q, hq, rfl⟩ := List.mem_map.mp hx
    have hpred := (List.mem_filter.mp hq).2
    simp only [Bool.and_eq_true, bne_iff_ne] at hpred
    exact hpred.2
  rw [joinSpace_eq_empty hall, List.map_eq_nil_iff, List.filter_eq_nil_iff]
  constructor
  · intro hnone p hp t ht
    have := hnone p hp
    simp only [ht, Option.isSome_some, Option.getD_some, Bool.true_and,
      bne_iff_ne, not_not] at this
    exact this
  · intro hall2 p hp
    cases ht : p.text with
    | none => simp [ht]
    | some t => simp [ht, hall2 p hp t ht]

theorem summarizeParts_normalizeParts (parts : List GeminiPart) :
    summarizeParts (normalizeParts parts) = summarizeParts parts := by
  unfold summarizeParts normalizeParts
  rw [List.filter_map, List.map_map]
  rfl

/-! ## C10 — stored versus returned diff summary -/

theorem handleEdit_success_spec (cfg : Config) (body : EditRequestBody)
    (db : DBState) (session : SessionRow)
    (imageParts maskPartsL rawParts : List GeminiPart)
    (ipart : GeminiPart) (imageId : String)
    (h1 : body.image_ids.isEmpty = false)
    (h2 : (body.edit_prompt == "") = false)
    (h3 : (resolveSession cfg body db).session = some session)
    (h4 : fetchInlineParts cfg body.image_ids = .ok imageParts)
    (h5 : maskInlineParts cfg body.masks = .ok maskPartsL)
    (h6 : cfg.oracle = .ok rawParts)
    (h7 : rawParts.isEmpty = false)
    (h8 : (normalizeParts rawParts).find? (fun p => p.inlineData.isSome) =
      some ipart)
    (h9 : cfg.blob = .ok imageId) :
    ∃ row,
      (handleEdit cfg body db).fst.versions =
        (resolveSession cfg body db).db.versions ++ [row] ∧
      row.diff_summary =
        (if summarizeParts (normalizeParts rawParts) == "" then none
         else some (summarizeParts (normalizeParts rawParts))) ∧
      (handleEdit cfg body db).snd =
        .ok imageId cfg.newVersionId (publicUrlOf cfg.deliveryBase imageId)
          (if summarizeParts (normalizeParts rawParts) == "" then
            "Updated render created."
           else summarizeParts (normalizeParts rawParts))
          (buildFollowupSuggestion
            (inferCameraAngle body.edit_prompt body.camera_hint)
            ((summarizeParts (normalizeParts rawParts)).length > 0)) := by
  have hinl := List.find?_some h8
  obtain ⟨inl, hinl'⟩ := Option.isSome_iff_exists.mp hinl
  simp only [handleEdit, h1, h2, h3, h4, h5, h6, h7, h8, hinl', h9,
    Bool.false_eq_true, if_false]
  refine ⟨_, rfl, ?_, ?_⟩ <;> first | rfl | trivial

/-- C10 (confirmed): on a successful edit, when the oracle answer has no
nonempty text part the inserted row's diff_summary column is null while the
response's diff summary is the fixed string "Updated render created."; and
whenever some nonempty text part exists the stored and returned summaries
coincide — so they differ exactly in the no-text case. -/
theorem c10_diff_summary (cfg : Config) (body : EditRequestBody)
    (db : DBState) (session : SessionRow)
    (imageParts maskPartsL rawParts : List GeminiPart)
    (ipart : GeminiPart) (imageId : String)
    (h1 : body.image_ids.isEmpty = false)
    (h2 : (body.edit_prompt == "") = false)
    (h3 : (resolveSession cfg body db).session = some session)
    (h4 : fetchInlineParts cfg body.image_ids = .ok imageParts)
    (h5 : maskInlineParts cfg body.masks = .ok maskPartsL)
    (h6 : cfg.oracle = .ok rawParts)
    (h7 : rawParts.isEmpty = false)
    (h8 : (normalizeParts rawParts).find? (fun p => p.inlineData.isSome) =
      some ipart)
    (h9 : cfg.blob = .ok imageId) :
    ∃ row diff,
      (handleEdit cfg body db).fst.versions =
        (resolveSession cfg body db).db.versions ++ [row] ∧
      (handleEdit cfg body db).snd =
        .ok imageId cfg.newVersionId (publicUrlOf cfg.deliveryBase imageId)
          diff
          (buildFollowupSuggestion
            (inferCameraAngle body.edit_prompt body.camera_hint)
            ((summarizeParts (normalizeParts rawParts)).length > 0)) ∧
      ((∀ p ∈ rawParts, ∀ t, p.text = some t → jsTrim t = "") →
          row.diff_summary = none ∧ diff = "Updated render created.") ∧
      ((∃ p ∈ rawParts, ∃ t, p.text = some t ∧ jsTrim t ≠ "") →
          row.diff_summary = some diff ∧
          diff = summarizeParts rawParts) := by
  obtain ⟨row, hv, hdiff, hsnd⟩ := handleEdit_success_spec cfg body db session
    imageParts maskPartsL rawParts ipart imageId h1 h2 h3 h4 h5 h6 h7 h8 h9
  refine ⟨row, _, hv, hsnd, ?_, ?_⟩
  · intro hno
    have hs : summarizeParts (normalizeParts rawParts) = "" := by
      rw [summarizeParts_normalizeParts]
      exact (summarizeParts_eq_empty_iff rawParts).mpr hno
    rw [hdiff, hs]
    simp
  · rintro ⟨p, hp, t, ht, hne⟩
    have hs : summarizeParts (normalizeParts rawParts) ≠ "" := by
      rw [summarizeParts_normalizeParts]
      intro hc
      exact hne ((summarizeParts_eq_empty_iff rawParts).mp hc p hp t ht)
    have hsb : (summarizeParts (normalizeParts rawParts) == "") = false :=
      beq_eq_false_iff_ne.mpr hs
    rw [hdiff, hsb]
    simp [hsb, summarizeParts_normalizeParts]

/-- C10 witness: the theorem applied at the baseline fixture, whose oracle
answer carries one inline image part and no text — the response reports the
fixed fallback summary. -/
theorem c10_witness :
    (handleEdit exCfg bodyWithBasePrompt dbEmpty).snd =
      .ok "img-new" exCfg.newVersionId
        (publicUrlOf exCfg.deliveryBase "img-new")
        "Updated render created."
        (buildFollowupSuggestion
          (inferCameraAngle bodyWithBasePrompt.edit_prompt
            bodyWithBasePrompt.camera_hint)
          ((summarizeParts (normalizeParts
            [{ inlineData := some { mimeType := some "image/png", data := "xyz" } }])).length > 0)) := by
  obtain ⟨row, diff, hv, hsnd, hno, -⟩ := c10_diff_summary exCfg
    bodyWithBasePrompt dbEmpty
    (createSession exCfg dbEmpty "modern kitchen").fst
    [{ inlineData := some { mimeType := some "image/png", data := "b64" } }]
    []
    [{ inlineData := some { mimeType := some "image/png", data := "xyz" } }]
    { inlineData := some { mimeType := some "image/png", data := "xyz" } }
    "img-new" rfl rfl rfl rfl rfl rfl rfl rfl rfl
  have hdone := hno (by
    intro p hp t ht
    rw [List.mem_singleton.mp hp] at ht
    exact absurd ht (by simp))
  rw [hsnd, hdone.2]

/-! ## C8 — corrupt persisted history is recovered, not fatal -/

theorem resolveSession_set_decode (cfg : Config)
    (d : String → Option (List GeminiMessage)) (body : EditRequestBody)
    (db : DBState) :
    resolveSession { cfg with decode := d } body db =
      resolveSession cfg body db := rfl

theorem saveHistory_set_decode (cfg : Config)
    (d : String → Option (List GeminiMessage)) (db : DBState) (sid : String)
    (hist : List GeminiMessage) :
    saveHistory { cfg with decode := d } db sid hist =
      saveHistory cfg db sid hist := rfl

theorem fetchInlineParts_set_decode (cfg : Config)
    (d : String → Option (List GeminiMessage)) (ids : List String) :
    fetchInlineParts { cfg with decode := d } ids =
      fetchInlineParts cfg ids := by
  induction ids with
  | nil => rfl
  | cons i rest ih => simp only [fetchInlineParts, ih]

theorem maskInlineParts_set_decode (cfg : Config)
    (d : String → Option (List GeminiMessage)) (ms : List MaskInput) :
    maskInlineParts { cfg with decode := d } ms =
      maskInlineParts cfg ms := by
  induction ms with
  | nil => rfl
  | cons m rest ih => simp only [maskInlineParts, ih]

theorem handleEdit_snd_set_decode (cfg : Config)
    (d1 d2 : String → Option (List GeminiMessage)) (body : EditRequestBody)
    (db : DBState) :
    (handleEdit { cfg with decode := d1 } body db).snd =
    (handleEdit { cfg with decode := d2 } body db).snd := by
  simp only [handleEdit, resolveSession_set_decode, saveHistory_set_decode,
    fetchInlineParts_set_decode, maskInlineParts_set_decode]
  repeat' split
  all_goals rfl

/-- C8 (corrected, theorem of the amended claim): a stored history string
that fails to decode is replaced by the empty history; the condition is
logged whenever the stored string is nonempty (the empty string is treated
as an empty history silently, before any parse attempt); and the edit
workflow's response never depends on the history decoder at all, so a
corrupt history cannot fail the request — parsing is total and never
throws. -/
theorem c8_corrupt_history_recovery :
    (∀ (decode : String → Option (List GeminiMessage)) (h : String),
        decode h = none →
        parseHistory decode (some h) = [] ∧
        (h ≠ "" → parseHistoryWarns decode (some h) = true)) ∧
    (∀ (cfg : Config) (d1 d2 : String → Option (List GeminiMessage))
        (body : EditRequestBody) (db : DBState),
        (handleEdit { cfg with decode := d1 } body db).snd =
        (handleEdit { cfg with decode := d2 } body db).snd) := by
  constructor
  · intro decode h hdec
    by_cases hh : h = ""
    · subst hh
      exact ⟨rfl, fun hc => absurd rfl hc⟩
    · have ht : strTruthy (some h) = true := by
        simp [strTruthy, bne_iff_ne, hh]
      constructor
      · unfold parseHistory
        rw [ht]
        simp [hdec]
      · intro _
        unfold parseHistoryWarns
        rw [ht]
        simp [hdec]
  · exact fun cfg d1 d2 body db => handleEdit_snd_set_decode cfg d1 d2 body db

/-- C8 counterexample: the empty string is a stored history that fails to
parse (JSON.parse of the empty string throws), and the workflow does
substitute the empty history and continue — but it does not log, because
the falsy-string early return precedes the parse attempt.  The claim's
"logs the condition" fails at this input. -/
theorem c8_counterexample :
    (fun _ : String => (none : Option (List GeminiMessage))) "" = none ∧
    parseHistory (fun _ => none) (some "") = [] ∧
    parseHistoryWarns (fun _ => none) (some "") = false :=
  ⟨rfl, rfl, rfl⟩

/-- C8 witness: the amended theorem applied at a nonempty corrupt string and
at two decoders on the baseline fixture. -/
theorem c8_witness :
    parseHistory (fun _ => none) (some "corrupt json") = [] ∧
    parseHistoryWarns (fun _ => none) (some "corrupt json") = true ∧
    (handleEdit { exCfg with decode := fun _ => none }
        bodyWithBasePrompt dbEmpty).snd =
      (handleEdit { exCfg with decode := fun _ => some [] }
        bodyWithBasePrompt dbEmpty).snd :=
  ⟨(c8_corrupt_history_recovery.1 (fun _ => none) "corrupt json" rfl).1,
   (c8_corrupt_history_recovery.1 (fun _ => none) "corrupt json" rfl).2
     (by decide),
   c8_corrupt_history_recovery.2 exCfg (fun _ => none) (fun _ => some [])
     bodyWithBasePrompt dbEmpty⟩

/-! ## C4 — latest version by angle label -/

theorem exists_max_created (l : List VersionRow) (hne : l ≠ []) :
    ∃ v ∈ l, ∀ w ∈ l, w.created_at ≤ v.created_at := by
  induction l with
  | nil => exact absurd rfl hne
  | cons a as ih =>
    by_cases has : as = []
    · subst has
      refine ⟨a, List.mem_cons_self .., ?_⟩
      intro w hw
      rw [List.mem_singleton.mp hw]
    · obtain ⟨v, hv, hmax⟩ := ih has
      by_cases hc : v.created_at ≤ a.created_at
      · refine ⟨a, List.mem_cons_self .., ?_⟩
        intro w hw
        rcases List.mem_cons.mp hw with rfl | hw
        · exact Nat.le_refl _
        · exact (hmax w hw).trans hc
      · refine ⟨v, List.mem_cons_of_mem _ hv, ?_⟩
        intro w hw
        rcases List.mem_cons.mp hw with rfl | hw
        · exact Nat.le_of_not_le hc
        · exact hmax w hw

theorem mem_angleMatches (tbl : List VersionRow) (label : String)
    (v : VersionRow) :
    v ∈ angleMatches tbl label ↔
      v ∈ tbl ∧ v.metadata.angle_id = some label := by
  simp [angleMatches, List.mem_filter]

/-- C4 (corrected, theorem of the amended claim): the query returns some
version of maximal creation time among those tagged with the label — a
result exists exactly when the tagged set is nonempty (NotFound exactly when
it is empty, untagged rows never matching) and any two admissible results
share the maximal creation time — but the choice among tied rows is
unspecified, there being no secondary sort key. -/
theorem c4_latest_by_angle :
    (∀ tbl label, (∃ v, renderAngleSelects tbl label v) ↔
        angleMatches tbl label ≠ []) ∧
    (∀ tbl label v w, renderAngleSelects tbl label v →
        renderAngleSelects tbl label w → v.created_at = w.created_at) ∧
    (∀ tbl label v, renderAngleSelects tbl label v →
        v ∈ angleMatches tbl label) := by
  refine ⟨?_, ?_, ?_⟩
  · intro tbl label
    constructor
    · rintro ⟨v, hv, hl, -⟩
      intro hnil
      have hm : v ∈ angleMatches tbl label := (mem_angleMatches ..).mpr ⟨hv, hl⟩
      rw [hnil] at hm
      exact absurd hm (List.not_mem_nil v)
    · intro hne
      obtain ⟨v, hv, hmax⟩ := exists_max_created (angleMatches tbl label) hne
      obtain ⟨hvt, hvl⟩ := (mem_angleMatches ..).mp hv
      refine ⟨v, hvt, hvl, ?_⟩
      intro w hw hwl
      exact hmax w ((mem_angleMatches ..).mpr ⟨hw, hwl⟩)
  · rintro tbl label v w ⟨hvt, hvl, hvmax⟩ ⟨hwt, hwl, hwmax⟩
    exact Nat.le_antisymm (hwmax v hvt hvl) (hvmax w hwt hwl)
  · rintro tbl label v ⟨hvt, hvl, -⟩
    exact (mem_angleMatches ..).mpr ⟨hvt, hvl⟩

/-- C4 counterexample: two distinct versions share the label patio and the
same creation time; both are admissible results of the query, so no stable
secondary key makes the result deterministic — the claim's uniqueness and
determinism assertion fails on this table. -/
theorem c4_counterexample :
    renderAngleSelects exTbl4 "patio" exV4a ∧
    renderAngleSelects exTbl4 "patio" exV4b ∧
    exV4a ≠ exV4b :=
  ⟨⟨by decide, by decide, by decide⟩, ⟨by decide, by decide, by decide⟩,
    by decide⟩

/-- C4 witness: the amended theorem applied at the tied fixture — both
admissible results share the creation time, and a result exists since the
tagged set is nonempty. -/
theorem c4_witness :
    exV4a.created_at = exV4b.created_at ∧
    (∃ v, renderAngleSelects exTbl4 "patio" v) := by
  constructor
  · exact c4_latest_by_angle.2.1 exTbl4 "patio" exV4a exV4b
      ⟨by decide, by decide, by decide⟩ ⟨by decide, by decide, by decide⟩
  · exact (c4_latest_by_angle.1 exTbl4 "patio").mpr (by decide)

/-! ## C3 — lineage as the breadth-first descendant subtree -/

theorem mem_childrenOf (tbl : List VersionRow) (pid : String)
    (v : VersionRow) :
    v ∈ childrenOf tbl pid ↔ v ∈ tbl ∧ v.parent_id = some pid := by
  simp [childrenOf, List.mem_filter]

theorem levelAt_succ (tbl : List VersionRow) (seed : List VersionRow)
    (d : Nat) :
    levelAt tbl seed (d + 1) =
      ((levelAt tbl seed d).map (fun v => childrenOf tbl v.id)).flatten := rfl

theorem levelAt_subset (tbl : List VersionRow) (seed : List VersionRow)
    (hseed : ∀ v ∈ seed, v ∈ tbl) :
    ∀ d, ∀ v ∈ levelAt tbl seed d, v ∈ tbl := by
  intro d
  induction d with
  | zero => exact hseed
  | succ d ih =>
    intro v hv
    rw [levelAt_succ] at hv
    obtain ⟨l, hl, hvl⟩ := List.mem_flatten.mp hv
    obtain ⟨w, hw, rfl⟩ := List.mem_map.mp hl
    exact ((mem_childrenOf ..).mp hvl).1

theorem levelAt_rank (tbl : List VersionRow) (root : VersionRow)
    (rank : String → Nat) (hroot : root ∈ tbl)
    (hrank : ∀ v ∈ tbl, ∀ w ∈ tbl, v.parent_id = some w.id →
      rank w.id < rank v.id) :
    ∀ d, ∀ v ∈ levelAt tbl [root] d, d ≤ rank v.id := by
  intro d
  induction d with
  | zero => intro v hv; exact Nat.zero_le _
  | succ d ih =>
    intro v hv
    rw [levelAt_succ] at hv
    obtain ⟨l, hl, hvl⟩ := List.mem_flatten.mp hv
    obtain ⟨w, hw, rfl⟩ := List.mem_map.mp hl
    obtain ⟨hvt, hvp⟩ := (mem_childrenOf ..).mp hvl
    have hwt : w ∈ tbl :=
      levelAt_subset tbl [root] (by simpa using hroot) d w hw
    have h1 := ih w hw
    have h2 := hrank v hvt w hwt hvp
    omega

theorem levelAt_desc (tbl : List VersionRow) (root : VersionRow)
    (hroot : root ∈ tbl) :
    ∀ d, ∀ v ∈ levelAt tbl [root] d, Desc tbl root.id v := by
  intro d
  induction d with
  | zero =>
    intro v hv
    rw [List.mem_singleton.mp hv]
    exact Desc.self root hroot rfl
  | succ d ih =>
    intro v hv
    rw [levelAt_succ] at hv
    obtain ⟨l, hl, hvl⟩ := List.mem_flatten.mp hv
    obtain ⟨w, hw, rfl⟩ := List.mem_map.mp hl
    obtain ⟨hvt, hvp⟩ := (mem_childrenOf ..).mp hvl
    exact Desc.child w v (ih w hw) hvt hvp

theorem desc_mem_level (tbl : List VersionRow) (root : VersionRow)
    (hfilter : tbl.filter (fun v => v.id == root.id) = [root]) :
    ∀ v, Desc tbl root.id v → ∃ d, v ∈ levelAt tbl [root] d := by
  intro v hv
  induction hv with
  | self v hvt hid =>
    have hm : v ∈ tbl.filter (fun w => w.id == root.id) :=
      List.mem_filter.mpr ⟨hvt, by simp [hid]⟩
    rw [hfilter] at hm
    exact ⟨0, hm⟩
  | child w v hw hvt hvp ih =>
    obtain ⟨d, hd⟩ := ih
    refine ⟨d + 1, ?_⟩
    rw [levelAt_succ]
    exact List.mem_flatten.mpr ⟨childrenOf tbl w.id,
      List.mem_map.mpr ⟨w, hd, rfl⟩, (mem_childrenOf ..).mpr ⟨hvt, hvp⟩⟩

theorem mem_lineage_iff (tbl : List VersionRow) (root : VersionRow)
    (rank : String → Nat)
    (hfilter : tbl.filter (fun v => v.id == root.id) = [root])
    (hrank : ∀ v ∈ tbl, ∀ w ∈ tbl, v.parent_id = some w.id →
      rank w.id < rank v.id)
    (hbound : ∀ v ∈ tbl, rank v.id < tbl.length) :
    ∀ v, v ∈ lineage tbl root.id ↔ Desc tbl root.id v := by
  have hroot : root ∈ tbl := by
    have hm : root ∈ tbl.filter (fun v => v.id == root.id) := by
      rw [hfilter]
      exact List.mem_singleton.mpr rfl
    exact List.mem_of_mem_filter hm
  intro v
  unfold lineage
  rw [hfilter]
  constructor
  · intro hv
    obtain ⟨l, hl, hvl⟩ := List.mem_flatten.mp hv
    obtain ⟨d, hd, rfl⟩ := List.mem_map.mp hl
    exact levelAt_desc tbl root hroot d v hvl
  · intro hv
    obtain ⟨d, hd⟩ := desc_mem_level tbl root hfilter v hv
    refine List.mem_flatten.mpr ⟨levelAt tbl [root] d,
      List.mem_map.mpr ⟨d, ?_, rfl⟩, hd⟩
    rw [List.mem_range]
    have h1 := levelAt_rank tbl root rank hroot hrank d v hd
    have h2 := hbound v (levelAt_subset tbl [root] (by simpa using hroot) d v hd)
    omega

theorem levelAt_nil_succ (tbl : List VersionRow) (seed : List VersionRow)
    (d : Nat) (h : levelAt tbl seed d = []) :
    levelAt tbl seed (d + 1) = [] := by
  rw [levelAt_succ, h]
  rfl

theorem lineage_childless (tbl : List VersionRow) (root : VersionRow)
    (hfilter : tbl.filter (fun v => v.id == root.id) = [root])
    (hchild : childrenOf tbl root.id = []) :
    lineage tbl root.id = [root] := by
  unfold lineage
  rw [hfilter]
  have hlev : ∀ d, levelAt tbl [root] (d + 1) = [] := by
    intro d
    induction d with
    | zero =>
      rw [levelAt_succ]
      rw [List.flatten_eq_nil_iff]
      intro l hl
      obtain ⟨w, hw, rfl⟩ := List.mem_map.mp hl
      rw [List.mem_singleton.mp hw]
      exact hchild
    | succ d ih => exact levelAt_nil_succ _ _ _ ih
  rw [List.range_succ_eq_map]
  simp only [List.map_cons, List.flatten_cons, List.map_map]
  have hnil :
      ((List.range tbl.length).map (levelAt tbl [root] ∘ Nat.succ)).flatten
        = [] := by
    rw [List.flatten_eq_nil_iff]
    intro l hl
    obtain ⟨d, hd, rfl⟩ := List.mem_map.mp hl
    exact hlev d
  rw [hnil]
  rfl

theorem lineage_head (tbl : List VersionRow) (root : VersionRow)
    (hfilter : tbl.filter (fun v => v.id == root.id) = [root]) :
    ∃ rest, lineage tbl root.id = root :: rest := by
  unfold lineage
  rw [hfilter, List.range_succ_eq_map]
  simp only [List.map_cons, List.flatten_cons]
  exact ⟨_, rfl⟩

/-- C3 (corrected, theorem of the amended claim): for a table whose parents
precede their children (witnessed by a rank), the lineage query returns the
queried node first at depth 0, contains exactly the descendant subtree of
the queried node, returns exactly the singleton for a childless node, and
lists the levels in depth order where level d+1 enumerates, for each node of
level d in discovery order, its children in table (creation) order — so
ties within a depth are grouped by parent, not globally sorted by creation
time. -/
theorem c3_lineage (tbl : List VersionRow) (root : VersionRow)
    (rank : String → Nat)
    (hfilter : tbl.filter (fun v => v.id == root.id) = [root])
    (hrank : ∀ v ∈ tbl, ∀ w ∈ tbl, v.parent_id = some w.id →
      rank w.id < rank v.id)
    (hbound : ∀ v ∈ tbl, rank v.id < tbl.length) :
    (∃ rest, lineage tbl root.id = root :: rest) ∧
    (∀ v, v ∈ lineage tbl root.id ↔ Desc tbl root.id v) ∧
    (childrenOf tbl root.id = [] → lineage tbl root.id = [root]) ∧
    lineage tbl root.id =
      ((List.range (tbl.length + 1)).map (levelAt tbl [root])).flatten ∧
    (∀ d, levelAt tbl [root] (d + 1) =
      ((levelAt tbl [root] d).map (fun v => childrenOf tbl v.id)).flatten) :=
  ⟨lineage_head tbl root hfilter,
   mem_lineage_iff tbl root rank hfilter hrank hbound,
   lineage_childless tbl root hfilter,
   by unfold lineage; rw [hfilter],
   fun d => rfl⟩

/-- C3 counterexample: on the five-node fixture the two depth-two nodes come
out grouped by parent (a1 under A before b1 under B) even though b1 was
created first — the claim's "ties at the same depth ordered by creation
order" requires the order r, A, B, b1, a1, which the query does not
produce. -/
theorem c3_counterexample :
    (lineage exTbl3 "r").map VersionRow.id = ["r", "A", "B", "a1", "b1"] ∧
    (lineage exTbl3 "r").map VersionRow.id ≠ ["r", "A", "B", "b1", "a1"] ∧
    (lineage exTbl3 "r").map VersionRow.created_at = [0, 1, 2, 4, 3] := by
  refine ⟨?_, ?_, ?_⟩ <;> decide

/-- C3 witness: the amended theorem applied at the five-node fixture with
its explicit rank — the root heads the output and a depth-two descendant is
a member. -/
theorem c3_witness :
    (∃ rest, lineage exTbl3 "r" = (vr "r" none 0) :: rest) ∧
    (vr "a1" (some "A") 4) ∈ lineage exTbl3 "r" := by
  have h := c3_lineage exTbl3 (vr "r" none 0) exRank3
    (by decide) (by decide) (by decide)
  refine ⟨h.1, ?_⟩
  exact (h.2.1 (vr "a1" (some "A") 4)).mpr
    (Desc.child (vr "A" (some "r") 1) (vr "a1" (some "A") 4)
      (Desc.child (vr "r" none 0) (vr "A" (some "r") 1)
        (Desc.self (vr "r" none 0) (by decide) rfl)
        (by decide) rfl)
      (by decide) rfl)

end Floorplan
